import Mathlib

/-!
Shallow embedding of the Hacksters Portfolio backend (src/main.py and
src/schemas.py) for verification of its specification.

Documents of the MongoDB store are modelled as insertion-ordered
association lists from field names to values.  The process-global store
handle `db` (which may be absent) is modelled as an `Option Store`
parameter threaded through each endpoint.  The helper module
`database.py` is not part of the sources; its two operations
(`create_document`, `get_documents`) are modelled from the
specification, as marked in their doc comments.
-/

namespace Hacksters

/-- Values that a stored document field may hold in this backend:
null, strings, integers, store-assigned object identifiers, lists of
strings (photo and skill lists) and string-to-string maps (socials). -/
inductive Value where
  | null
  | str (s : String)
  | int (n : Int)
  | oid (n : Nat)
  | strList (ss : List String)
  | strMap (m : List (String × String))
deriving DecidableEq, Repr

/-- The string form of a value, as produced by Python `str(...)`;
object identifiers render as their numeral, mirroring `str(ObjectId)`
being a string determined by the identifier. -/
def Value.strForm : Value → String
  | .null => "None"
  | .str s => s
  | .int n => toString n
  | .oid n => toString n
  | .strList ss => toString ss
  | .strMap m => toString (m.map (fun p => p.1 ++ ":" ++ p.2))

/-- A stored document: an insertion-ordered dictionary from field names
to values (a Python dict has no duplicate keys). -/
abbrev Doc : Type := List (String × Value)

/-- Dictionary lookup, Python `d[k]` / `k in d` / `d.get(k)`: the value
of the first (and in a Python dict, only) pair whose key is `k`. -/
def dget (d : Doc) (k : String) : Option Value :=
  match d with
  | [] => none
  | p :: ps => if p.1 = k then some p.2 else dget ps k

/-- Dictionary key removal, Python `d.pop(k)` (keys are unique in a
Python dict, so removing every pair with key `k` agrees with it). -/
def derase (d : Doc) (k : String) : Doc :=
  match d with
  | [] => []
  | p :: ps => if p.1 = k then derase ps k else p :: derase ps k

/-- Dictionary assignment, Python `d[k] = v`: replaces the value in
place when the key is present, appends the pair at the end otherwise. -/
def dset (d : Doc) (k : String) (v : Value) : Doc :=
  match d with
  | [] => [(k, v)]
  | p :: ps => if p.1 = k then (k, v) :: ps else p :: dset ps k v

/-- The five collections of the store plus the counter from which the
next store-assigned identifier is drawn (uniqueness of identifiers is
modelled by drawing them from an increasing counter). -/
structure Store where
  organization : List Doc := []
  stats : List Doc := []
  event : List Doc := []
  teammember : List Doc := []
  contactsubmission : List Doc := []
  nextId : Nat := 0
deriving DecidableEq

/-- Collection access by name, `db[collection_name]`. -/
def getColl (s : Store) (c : String) : List Doc :=
  if c = "organization" then s.organization
  else if c = "stats" then s.stats
  else if c = "event" then s.event
  else if c = "teammember" then s.teammember
  else if c = "contactsubmission" then s.contactsubmission
  else []

/-- Collection update by name: appends a document to the named
collection (only the five collection names above are ever used). -/
def putColl (s : Store) (c : String) (d : Doc) : Store :=
  if c = "organization" then { s with organization := s.organization ++ [d] }
  else if c = "stats" then { s with stats := s.stats ++ [d] }
  else if c = "event" then { s with event := s.event ++ [d] }
  else if c = "teammember" then { s with teammember := s.teammember ++ [d] }
  else if c = "contactsubmission" then { s with contactsubmission := s.contactsubmission ++ [d] }
  else s

/-- Insertion of one document into a connected store: the store assigns
the next identifier, attaches it to the document under `_id` (as
`insert_one` does) and returns the identifier in string form. -/
def create_doc (s : Store) (c : String) (d : Doc) : Store × String :=
  let v := Value.oid s.nextId
  (putColl { s with nextId := s.nextId + 1 } c (dset d "_id" v), v.strForm)

/-- Modelled from the spec: `create_document` of the database module
(not among the sources) persists the document in the named collection,
assigns a unique identifier and returns it as a string, and fails with
a storage error when the underlying connection is unavailable.  The
first component of the result is the store state afterwards. -/
def create_document (db : Option Store) (c : String) (d : Doc) :
    Option Store × Except String String :=
  match db with
  | none => (none, .error "Database not available")
  | some s =>
      let r := create_doc s c d
      (some r.1, .ok r.2)

/-- Modelled from the spec: `get_documents` of the database module (not
among the sources) returns every document of the named collection, each
with its identifier attached, in store-native order, and an empty list
when the collection is empty or missing. -/
def get_documents (s : Store) (c : String) : List Doc :=
  getColl s c

/-- The serialization helper `to_serializable` of `src/main.py`: a
falsy (empty) document is returned unchanged; otherwise, when the
document carries the internal identifier `_id`, that key is popped and
a key `id` holding its string form is assigned. -/
def to_serializable (doc : Doc) : Doc :=
  if doc = ([] : Doc) then doc
  else
    match dget doc "_id" with
    | none => doc
    | some v => dset (derase doc "_id") "id" (.str v.strForm)

/-- A validated Event of `src/schemas.py` (the `type` field is kept as
the raw string; the enum constraint is enforced by validation). -/
structure Event where
  title : String
  date : String
  venue : String
  type : String
  position : Option String := none
  description : Option String := none
  photos : List String := []
deriving DecidableEq

/-- A validated TeamMember of `src/schemas.py`. -/
structure TeamMember where
  name : String
  role : String
  nickname : Option String := none
  bio : Option String := none
  skills : List String := []
  email : Option String := none
  phone : Option String := none
  photo_url : Option String := none
  instagram : Option String := none
  linkedin : Option String := none
  github : Option String := none
deriving DecidableEq

/-- A validated ContactSubmission of `src/schemas.py`. -/
structure ContactSubmission where
  name : String
  email : String
  subject : String
  message : String
  company : Option String := none
deriving DecidableEq

/-- A validated Stats document of `src/schemas.py`. -/
structure Stats where
  patents : Int
  team_size : Int
  achievements : Int
deriving DecidableEq

/-- An optional string field serialized into a stored document. -/
def optVal : Option String → Value
  | none => .null
  | some s => .str s

/-- The stored form of a validated Event. -/
def Event.toDoc (e : Event) : Doc :=
  [("title", .str e.title), ("date", .str e.date), ("venue", .str e.venue),
   ("type", .str e.type), ("position", optVal e.position),
   ("description", optVal e.description), ("photos", .strList e.photos)]

/-- The stored form of a validated TeamMember. -/
def TeamMember.toDoc (m : TeamMember) : Doc :=
  [("name", .str m.name), ("role", .str m.role), ("nickname", optVal m.nickname),
   ("bio", optVal m.bio), ("skills", .strList m.skills), ("email", optVal m.email),
   ("phone", optVal m.phone), ("photo_url", optVal m.photo_url),
   ("instagram", optVal m.instagram), ("linkedin", optVal m.linkedin),
   ("github", optVal m.github)]

/-- The stored form of a validated ContactSubmission. -/
def ContactSubmission.toDoc (c : ContactSubmission) : Doc :=
  [("name", .str c.name), ("email", .str c.email), ("subject", .str c.subject),
   ("message", .str c.message), ("company", optVal c.company)]

/-- The default Organization document inserted by `POST /seed`. -/
def orgSeedDoc : Doc :=
  [("name", .str "HACKSTERS"), ("founded_year", .int 2019),
   ("mission", .str "Where ideas become reality."),
   ("socials", .strMap [("github", "https://github.com/"), ("linkedin", "https://linkedin.com/")])]

/-- The default Stats document inserted by `POST /seed`. -/
def statsSeedDoc : Doc :=
  [("patents", .int 0), ("team_size", .int 8), ("achievements", .int 12)]

/-- The endpoint `POST /seed` (`seed_minimal` of `src/main.py`): raises
a configuration error when the store handle is absent; otherwise
inserts the default Organization document when the organization
collection counts zero documents, then the default Stats document when
the stats collection counts zero documents, and returns the list of
inserted identifiers.  The first component is the store afterwards. -/
def seed_minimal (db : Option Store) : Option Store × Except String (List String) :=
  match db with
  | none => (none, .error "Database not configured")
  | some s =>
      let step1 : Store × List String :=
        if s.organization.length = 0 then
          let r := create_doc s "organization" orgSeedDoc
          (r.1, [r.2])
        else (s, [])
      let step2 : Store × List String :=
        if step1.1.stats.length = 0 then
          let r := create_doc step1.1 "stats" statsSeedDoc
          (r.1, step1.2 ++ [r.2])
        else (step1.1, step1.2)
      (some step2.1, .ok step2.2)

/-- The endpoint `GET /content/organization`: `None` when the handle is
absent or the collection holds no (truthy) document, the serialized
first document otherwise (`find_one` with an empty filter returns the
first document in store-native order). -/
def get_organization (db : Option Store) : Option Doc :=
  match db with
  | none => none
  | some s =>
      match s.organization.head? with
      | none => none
      | some d => if d = ([] : Doc) then none else some (to_serializable d)

/-- The endpoint `GET /content/stats`, same pattern as the organization
read. -/
def get_stats (db : Option Store) : Option Doc :=
  match db with
  | none => none
  | some s =>
      match s.stats.head? with
      | none => none
      | some d => if d = ([] : Doc) then none else some (to_serializable d)

/-- Lexicographic comparison of character lists by code point, the
comparison Python applies to strings.  Structurally recursive, so it
evaluates inside the kernel. -/
def charListLt : List Char → List Char → Bool
  | [], [] => false
  | [], _ :: _ => true
  | _ :: _, [] => false
  | a :: as, b :: bs =>
      if a < b then true
      else if b < a then false
      else charListLt as bs

/-- Lexicographic string comparison by code point, Python `a < b` on
strings. -/
def strLt (a b : String) : Bool :=
  charListLt a.data b.data

/-- The sort key of `list_events`: Python `x.get("date", "")`.  Every
document persisted through this backend stores `date` as a string; a
missing field yields the empty string. -/
def dateKey (d : Doc) : String :=
  match dget d "date" with
  | some (.str s) => s
  | _ => ""

/-- Stable descending insertion by `dateKey`: the new document is
placed before the first position whose key is not greater than its own,
so documents with equal keys keep their relative order. -/
def insertByDateDesc (x : Doc) : List Doc → List Doc
  | [] => [x]
  | y :: ys =>
      if strLt (dateKey x) (dateKey y) then y :: insertByDateDesc x ys
      else x :: y :: ys

/-- Stable sort by `dateKey` descending, the model of Python
`sorted(docs, key=lambda x: x.get("date", ""), reverse=True)` (which is
a stable sort under the reversed key comparison). -/
def sortByDateDesc : List Doc → List Doc
  | [] => []
  | x :: xs => insertByDateDesc x (sortByDateDesc xs)

/-- The endpoint `GET /timeline` (`list_events` of `src/main.py`): an
empty list when the handle is absent, otherwise all event documents
sorted by date descending and serialized. -/
def list_events (db : Option Store) : List Doc :=
  match db with
  | none => []
  | some s => (sortByDateDesc (get_documents s "event")).map to_serializable

/-- The endpoint `GET /team` (`list_team` of `src/main.py`). -/
def list_team (db : Option Store) : List Doc :=
  match db with
  | none => []
  | some s => (get_documents s "teammember").map to_serializable

/-- The handler of `POST /timeline` (`create_event` of `src/main.py`),
given an already validated Event; it returns the new identifier. -/
def create_event (db : Option Store) (e : Event) : Option Store × Except String String :=
  create_document db "event" e.toDoc

/-- The handler of `POST /team` (`create_member` of `src/main.py`). -/
def create_member (db : Option Store) (m : TeamMember) : Option Store × Except String String :=
  create_document db "teammember" m.toDoc

/-- The handler of `POST /contact` (`submit_contact` of
`src/main.py`); the response carries the identifier and the fixed
status string. -/
def submit_contact (db : Option Store) (c : ContactSubmission) :
    Option Store × Except String (String × String) :=
  match create_document db "contactsubmission" c.toDoc with
  | (db2, .error e) => (db2, .error e)
  | (db2, .ok i) => (db2, .ok (i, "received"))

/-- The diagnostic structure returned by `GET /test`. -/
structure TestResponse where
  backend : String
  database : String
  database_url : Option String
  database_name : Option String
  connection_status : String
  collections : List String
deriving DecidableEq

/-- The endpoint `GET /test` (`test_database` of `src/main.py`).  The
environment flags say whether DATABASE_URL and DATABASE_NAME are set;
the outcome of the external call `db.list_collection_names()` (which
may throw) is passed as an `Except`, whose error case models the
exception caught by the inner handler.  Every branch of the Python
function ends in `return response`, so the model is a total function:
no store state makes the endpoint raise. -/
def test_database (db : Option Store) (urlSet nameSet : Bool)
    (listColls : Except String (List String)) : TestResponse :=
  match db with
  | none =>
      { backend := "✅ Running"
        database := "⚠️ Available but not initialized"
        database_url := none
        database_name := none
        connection_status := "Not Connected"
        collections := [] }
  | some _ =>
      let urlS := if urlSet then "✅ Set" else "❌ Not Set"
      let nameS := if nameSet then "✅ Set" else "❌ Not Set"
      match listColls with
      | .ok cs =>
          { backend := "✅ Running"
            database := "✅ Connected & Working"
            database_url := some urlS
            database_name := some nameS
            connection_status := "Connected"
            collections := cs.take 10 }
      | .error e =>
          { backend := "✅ Running"
            database := "⚠️ Connected but Error: " ++ e.take 80
            database_url := some urlS
            database_name := some nameS
            connection_status := "Not Connected"
            collections := [] }

/-- The enum constraint of the Event `type` field,
`Literal["win", "participated"]` of `src/schemas.py`. -/
def eventTypeValid (t : String) : Bool :=
  t == "win" || t == "participated"

/-- A raw Event payload before validation: the shape of a JSON body
whose primitive fields already have the right primitive types, with the
`type` string still unconstrained. -/
structure EventPayload where
  title : String
  date : String
  venue : String
  type : String
  position : Option String := none
  description : Option String := none
  photos : List String := []
deriving DecidableEq

/-- Validation of an Event payload as performed by the framework before
the handler runs; the enum constraint on `type` is modelled exactly
(the URL format check on `photos` entries is not modelled, so only the
failure direction of full validation is used in theorems). -/
def validateEvent (p : EventPayload) : Option Event :=
  if eventTypeValid p.type then
    some { title := p.title, date := p.date, venue := p.venue, type := p.type,
           position := p.position, description := p.description, photos := p.photos }
  else none

/-- The full route `POST /timeline`: the body is validated against the
Event schema; a validation failure rejects the request before any
persistence attempt, otherwise the handler `create_event` runs. -/
def post_timeline (db : Option Store) (p : EventPayload) :
    Option Store × Except String String :=
  match validateEvent p with
  | none => (db, .error "validation error")
  | some e => create_event db e

/-- A raw Stats payload: each field either present with an integer
value or omitted. -/
structure StatsPayload where
  patents : Option Int := none
  team_size : Option Int := none
  achievements : Option Int := none
deriving DecidableEq

/-- Validation of a Stats payload against `src/schemas.py`: every field
is optional with default 0, and each carries the constraint `ge=0`, so
any negative provided value fails validation. -/
def validateStats (p : StatsPayload) : Option Stats :=
  let pa := p.patents.getD 0
  let ts := p.team_size.getD 0
  let ac := p.achievements.getD 0
  if 0 ≤ pa ∧ 0 ≤ ts ∧ 0 ≤ ac then
    some { patents := pa, team_size := ts, achievements := ac }
  else none

/-! Theorems.  First the bridge between the executable code-point
comparison and the linear order on strings, then the dictionary and
sort lemmas, then one theorem per specification claim. -/

theorem charListLt_iff (a b : List Char) : charListLt a b = true ↔ a < b := by
  induction a generalizing b with
  | nil =>
      cases b with
      | nil =>
          simp only [charListLt]
          constructor
          · intro h; cases h
          · intro h; cases h
      | cons c cs =>
          simp only [charListLt]
          exact ⟨fun _ => List.Lex.nil, fun _ => trivial⟩
  | cons a as ih =>
      cases b with
      | nil =>
          simp only [charListLt]
          constructor
          · intro h; cases h
          · intro h; cases h
      | cons b bs =>
          simp only [charListLt]
          split_ifs with hab hba
          · exact ⟨fun _ => List.Lex.rel hab, fun _ => rfl⟩
          · constructor
            · intro h; cases h
            · intro h
              cases h with
              | cons h1 => exact absurd hba (lt_irrefl a)
              | rel h1 => exact absurd h1 hab
          · have heq : a = b := le_antisymm (le_of_not_lt hba) (le_of_not_lt hab)
            subst heq
            rw [ih bs]
            constructor
            · intro h; exact List.Lex.cons h
            · intro h
              cases h with
              | cons h1 => exact h1
              | rel h1 => exact absurd h1 hab

theorem strLt_iff (a b : String) : strLt a b = true ↔ a < b := by
  rw [String.lt_iff_toList_lt]
  exact charListLt_iff a.data b.data

theorem strLt_false_iff (a b : String) : strLt a b = false ↔ b ≤ a := by
  rw [← not_lt, ← strLt_iff]
  simp

theorem emptyStr_le (s : String) : "" ≤ s := by
  rw [String.le_iff_toList_le]
  exact List.nil_le

theorem le_empty_eq (s : String) (h : s ≤ "") : s = "" :=
  le_antisymm h (emptyStr_le s)

theorem dget_dset_same (d : Doc) (k : String) (v : Value) :
    dget (dset d k v) k = some v := by
  induction d with
  | nil => simp [dset, dget]
  | cons p ps ih =>
      by_cases h : p.1 = k
      · simp [dset, h, dget]
      · simp [dset, h, dget, ih]

theorem dget_dset_ne (d : Doc) (k k' : String) (v : Value) (h : k' ≠ k) :
    dget (dset d k v) k' = dget d k' := by
  induction d with
  | nil => simp [dset, dget, Ne.symm h]
  | cons p ps ih =>
      by_cases hp : p.1 = k
      · have hp' : ¬ p.1 = k' := by rw [hp]; exact Ne.symm h
        simp [dset, hp, dget, Ne.symm h, hp']
      · simp [dset, hp, dget, ih]

theorem dget_derase_ne (d : Doc) (k k' : String) (h : k' ≠ k) :
    dget (derase d k) k' = dget d k' := by
  induction d with
  | nil => rfl
  | cons p ps ih =>
      by_cases hp : p.1 = k
      · have hp' : ¬ p.1 = k' := by rw [hp]; exact Ne.symm h
        simp [derase, hp, dget, hp', Ne.symm h, ih]
      · simp [derase, hp, dget, ih]

theorem dget_derase_same (d : Doc) (k : String) :
    dget (derase d k) k = none := by
  induction d with
  | nil => rfl
  | cons p ps ih =>
      by_cases hp : p.1 = k
      · simp [derase, hp, ih]
      · simp [derase, hp, dget, ih]

theorem dget_ts_id (d : Doc) (v : Value) (hne : d ≠ []) (h : dget d "_id" = some v) :
    dget (to_serializable d) "id" = some (.str v.strForm) := by
  simp [to_serializable, hne, h, dget_dset_same]

theorem dget_ts_noid (d : Doc) (v : Value) (hne : d ≠ []) (h : dget d "_id" = some v) :
    dget (to_serializable d) "_id" = none := by
  simp only [to_serializable, if_neg hne, h]
  rw [dget_dset_ne _ _ _ _ (by decide), dget_derase_same]

theorem dget_ts_other (d : Doc) (k : String) (h1 : k ≠ "_id") (h2 : k ≠ "id") :
    dget (to_serializable d) k = dget d k := by
  by_cases hne : d = []
  · rw [hne]; rfl
  · rw [to_serializable, if_neg hne]
    cases h : dget d "_id" with
    | none => rfl
    | some v => rw [dget_dset_ne _ _ _ _ h2, dget_derase_ne _ _ _ h1]

theorem dateKey_ts (d : Doc) : dateKey (to_serializable d) = dateKey d := by
  rw [dateKey, dateKey, dget_ts_other d "date" (by decide) (by decide)]

theorem mem_insertByDateDesc {z x : Doc} {l : List Doc} (h : z ∈ insertByDateDesc x l) :
    z = x ∨ z ∈ l := by
  induction l with
  | nil => simpa [insertByDateDesc] using h
  | cons y ys ih =>
      rw [insertByDateDesc] at h
      by_cases hc : strLt (dateKey x) (dateKey y) = true
      · rw [if_pos hc] at h
        rcases List.mem_cons.mp h with h2 | h2
        · exact Or.inr (h2 ▸ List.mem_cons_self _ _)
        · rcases ih h2 with h3 | h3
          · exact Or.inl h3
          · exact Or.inr (List.mem_cons_of_mem _ h3)
      · rw [if_neg hc] at h
        rcases List.mem_cons.mp h with h2 | h2
        · exact Or.inl h2
        · exact Or.inr h2

theorem pairwise_insertByDateDesc {x : Doc} {l : List Doc}
    (hl : List.Pairwise (fun a b => dateKey b ≤ dateKey a) l) :
    List.Pairwise (fun a b => dateKey b ≤ dateKey a) (insertByDateDesc x l) := by
  induction l with
  | nil => simp [insertByDateDesc]
  | cons y ys ih =>
      rcases List.pairwise_cons.mp hl with ⟨hy, hys⟩
      rw [insertByDateDesc]
      by_cases hc : strLt (dateKey x) (dateKey y) = true
      · rw [if_pos hc]
        refine List.pairwise_cons.mpr ⟨?_, ih hys⟩
        intro z hz
        rcases mem_insertByDateDesc hz with h2 | h2
        · rw [h2]
          exact le_of_lt ((strLt_iff _ _).mp hc)
        · exact hy z h2
      · have hc' : strLt (dateKey x) (dateKey y) = false := by
          simpa using hc
        rw [if_neg hc]
        refine List.pairwise_cons.mpr ⟨?_, hl⟩
        intro z hz
        have hky : dateKey y ≤ dateKey x := (strLt_false_iff _ _).mp hc'
        rcases List.mem_cons.mp hz with h2 | h2
        · rw [h2]; exact hky
        · exact le_trans (hy z h2) hky

theorem perm_insertByDateDesc (x : Doc) (l : List Doc) :
    (insertByDateDesc x l).Perm (x :: l) := by
  induction l with
  | nil => exact List.Perm.refl _
  | cons y ys ih =>
      rw [insertByDateDesc]
      by_cases hc : strLt (dateKey x) (dateKey y) = true
      · rw [if_pos hc]
        exact (ih.cons y).trans (List.Perm.swap x y ys)
      · rw [if_neg hc]

theorem perm_sortByDateDesc (l : List Doc) : (sortByDateDesc l).Perm l := by
  induction l with
  | nil => exact List.Perm.refl _
  | cons x xs ih =>
      rw [sortByDateDesc]
      exact (perm_insertByDateDesc x _).trans (ih.cons x)

theorem pairwise_sortByDateDesc (l : List Doc) :
    List.Pairwise (fun a b => dateKey b ≤ dateKey a) (sortByDateDesc l) := by
  induction l with
  | nil => exact List.Pairwise.nil
  | cons x xs ih => exact pairwise_insertByDateDesc ih

theorem filter_insertByDateDesc (k : String) (x : Doc) (l : List Doc) :
    (insertByDateDesc x l).filter (fun d => decide (dateKey d = k)) =
      if dateKey x = k then x :: l.filter (fun d => decide (dateKey d = k))
      else l.filter (fun d => decide (dateKey d = k)) := by
  induction l with
  | nil =>
      by_cases hxk : dateKey x = k <;> simp [insertByDateDesc, hxk]
  | cons y ys ih =>
      rw [insertByDateDesc]
      by_cases hc : strLt (dateKey x) (dateKey y) = true
      · rw [if_pos hc, List.filter_cons]
        by_cases hyk : dateKey y = k
        · have hxk : ¬ dateKey x = k := by
            intro hxe
            have hlt := (strLt_iff _ _).mp hc
            rw [hxe, hyk] at hlt
            exact lt_irrefl k hlt
          simp [hyk, ih, hxk, List.filter_cons]
        · by_cases hxk : dateKey x = k <;>
            simp [hyk, ih, hxk, List.filter_cons]
      · rw [if_neg hc, List.filter_cons, List.filter_cons]
        by_cases hxk : dateKey x = k <;> simp [hxk]

theorem filter_sortByDateDesc (k : String) (l : List Doc) :
    (sortByDateDesc l).filter (fun d => decide (dateKey d = k)) =
      l.filter (fun d => decide (dateKey d = k)) := by
  induction l with
  | nil => rfl
  | cons x xs ih =>
      rw [sortByDateDesc, filter_insertByDateDesc, List.filter_cons]
      by_cases hxk : dateKey x = k <;> simp [hxk, ih]

/-- An empty store with all five collections empty. -/
def emptyStore : Store := {}

/-- C1: when the store connection is absent (db is None), every write
endpoint (POST /seed, POST /timeline, POST /team, POST /contact) fails
with an explicit configuration error, and the store state (first
component) is unchanged: nothing is persisted. -/
theorem writes_fail_without_store :
    seed_minimal none = (none, Except.error "Database not configured") ∧
    (∀ e : Event, create_event none e = (none, Except.error "Database not available")) ∧
    (∀ m : TeamMember, create_member none m = (none, Except.error "Database not available")) ∧
    (∀ c : ContactSubmission,
      submit_contact none c = (none, Except.error "Database not available")) :=
  ⟨rfl, fun _ => rfl, fun _ => rfl, fun _ => rfl⟩

/-- C6: when the store connection is absent every read endpoint
degrades rather than fails: the two single-document reads return null
and the two list reads return empty lists; moreover the organization
read returns null whenever the organization collection is empty. -/
theorem reads_degrade_without_store :
    get_organization none = none ∧
    get_stats none = none ∧
    list_events none = [] ∧
    list_team none = [] ∧
    (∀ s : Store, s.organization = [] → get_organization (some s) = none) := by
  refine ⟨rfl, rfl, rfl, rfl, fun s h => ?_⟩
  simp [get_organization, h]

/-- Witness for C6 at a concrete empty store. -/
theorem reads_degrade_without_store_witness :
    get_organization (some emptyStore) = none :=
  reads_degrade_without_store.2.2.2.2 emptyStore rfl

/-- C3: an Event payload whose type is not the literal "win" or
"participated" fails validation of POST /timeline and nothing is
persisted (the request is rejected with the store unchanged); a type
in that set passes the enum check, and only those two strings do. -/
theorem event_type_enum_check :
    (∀ (db : Option Store) (p : EventPayload), eventTypeValid p.type = false →
        post_timeline db p = (db, Except.error "validation error")) ∧
    eventTypeValid "win" = true ∧
    eventTypeValid "participated" = true ∧
    (∀ t : String, eventTypeValid t = true → t = "win" ∨ t = "participated") := by
  refine ⟨fun db p h => ?_, rfl, rfl, fun t h => ?_⟩
  · simp [post_timeline, validateEvent, h]
  · simpa [eventTypeValid] using h

/-- Witness for C3: a payload with type "lost" is rejected against a
concrete store and nothing is persisted. -/
theorem event_type_enum_check_witness :
    post_timeline (some emptyStore)
        { title := "t", date := "2023-01-01", venue := "v", type := "lost" } =
      (some emptyStore, Except.error "validation error") :=
  event_type_enum_check.1 (some emptyStore) _ rfl

/-- C7: validation of a Stats payload rejects a negative value in any
of the three numeric fields and accepts exactly the payloads whose
provided values are all nonnegative, returning them unchanged. -/
theorem stats_validation_nonneg (p t a : Int) :
    (validateStats { patents := some p, team_size := some t, achievements := some a } =
        some { patents := p, team_size := t, achievements := a } ↔
      0 ≤ p ∧ 0 ≤ t ∧ 0 ≤ a) ∧
    (validateStats { patents := some p, team_size := some t, achievements := some a } =
        none ↔
      p < 0 ∨ t < 0 ∨ a < 0) := by
  constructor
  · simp only [validateStats, Option.getD_some]
    split_ifs with h
    · exact iff_of_true rfl h
    · exact iff_of_false (by simp) h
  · simp only [validateStats, Option.getD_some]
    split_ifs with h
    · refine iff_of_false (by simp) ?_
      push_neg
      exact ⟨h.1, h.2.1, h.2.2⟩
    · refine iff_of_true rfl ?_
      push_neg at h
      by_cases hp : 0 ≤ p
      · by_cases ht : 0 ≤ t
        · exact Or.inr (Or.inr (h hp ht))
        · exact Or.inr (Or.inl (lt_of_not_le ht))
      · exact Or.inl (lt_of_not_le hp)

/-- C9: every Stats field is optional with default 0: a payload that
omits all three fields validates and yields the all-zero document. -/
theorem stats_defaults_zero :
    validateStats {} = some { patents := 0, team_size := 0, achievements := 0 } := by
  decide

theorem strTake_length_le (s : String) (n : Nat) : (s.take n).length ≤ n := by
  rw [String.take_eq]
  simp only [String.length]
  rw [List.length_take]
  exact min_le_left _ _

/-- C8: the connectivity probe GET /test is a total function of the
store state (every branch of the source returns the response object):
it always reports a running backend; with an uninitialized handle it
reports the not-initialized state; when enumerating collections throws
it reports the diagnostic message truncated to 80 characters; and on
success it reports at most 10 collection names. -/
theorem test_probe_reports (db : Option Store) (u n : Bool)
    (r : Except String (List String)) :
    (test_database db u n r).backend = "✅ Running" ∧
    (db = none →
      test_database db u n r =
        { backend := "✅ Running", database := "⚠️ Available but not initialized",
          database_url := none, database_name := none,
          connection_status := "Not Connected", collections := [] }) ∧
    (∀ e, db ≠ none → r = Except.error e →
      (test_database db u n r).database = "⚠️ Connected but Error: " ++ e.take 80 ∧
      (e.take 80).length ≤ 80) ∧
    (∀ cs, db ≠ none → r = Except.ok cs →
      (test_database db u n r).collections = cs.take 10 ∧
      (test_database db u n r).collections.length ≤ 10) := by
  cases db with
  | none =>
      cases r with
      | ok cs =>
          exact ⟨rfl, fun _ => rfl, fun e hne => absurd rfl hne, fun cs2 hne => absurd rfl hne⟩
      | error e =>
          exact ⟨rfl, fun _ => rfl, fun e2 hne => absurd rfl hne, fun cs hne => absurd rfl hne⟩
  | some s =>
      cases r with
      | ok cs =>
          refine ⟨rfl, ?_, ?_, ?_⟩
          · intro h
            exact Option.noConfusion h
          · intro e _ hr
            exact Except.noConfusion hr
          · intro cs2 _ hr
            injection hr with he
            subst he
            refine ⟨rfl, ?_⟩
            have hcoll : (test_database (some s) u n (Except.ok cs)).collections =
                cs.take 10 := rfl
            rw [hcoll, List.length_take]
            exact min_le_left _ _
      | error e =>
          refine ⟨rfl, ?_, ?_, ?_⟩
          · intro h
            exact Option.noConfusion h
          · intro e2 _ hr
            injection hr with he
            subst he
            exact ⟨rfl, strTake_length_le e 80⟩
          · intro cs _ hr
            exact Except.noConfusion hr

/-- Witness for C8 at concrete store states: an absent handle, a
throwing enumeration, and a successful enumeration. -/
theorem test_probe_reports_witness :
    test_database none true true (Except.ok []) =
      { backend := "✅ Running", database := "⚠️ Available but not initialized",
        database_url := none, database_name := none,
        connection_status := "Not Connected", collections := [] } ∧
    (test_database (some emptyStore) true true (Except.error "boom")).database =
      "⚠️ Connected but Error: " ++ "boom".take 80 ∧
    (test_database (some emptyStore) false false (Except.ok ["a", "b"])).collections =
      ["a", "b"].take 10 :=
  ⟨(test_probe_reports none true true (Except.ok [])).2.1 rfl,
   ((test_probe_reports (some emptyStore) true true (Except.error "boom")).2.2.1
      "boom" (fun h => Option.noConfusion h) rfl).1,
   ((test_probe_reports (some emptyStore) false false (Except.ok ["a", "b"])).2.2.2
      ["a", "b"] (fun h => Option.noConfusion h) rfl).1⟩

/-- C5 counterexample: the claim that serialization leaves every field
other than the internal identifier unchanged fails on a document that
already carries an `id` field: `to_serializable` overwrites it with the
string form of the identifier.  Concretely, for the document with pairs
`_id = 7` and `id = "keep"`, the output value at key `id` is "7", not
"keep". -/
theorem to_serializable_preserves_claim_false :
    ¬ (∀ (d : Doc), (d.map Prod.fst).Nodup → d ≠ [] → ∀ v, dget d "_id" = some v →
        dget (to_serializable d) "_id" = none ∧
        dget (to_serializable d) "id" = some (Value.str v.strForm) ∧
        ∀ k, k ≠ "_id" → dget (to_serializable d) k = dget d k) := by
  intro h
  have h0 := h [("_id", Value.int 7), ("id", Value.str "keep")]
    (by decide) (by decide) (Value.int 7) (by decide)
  have h1 := h0.2.2 "id" (by decide)
  exact absurd h1 (by decide)

/-- C5 amended: for a non-empty document carrying `_id`, serialization
removes `_id`, sets `id` to the string form of the identifier
(overwriting any pre-existing `id` field), and leaves every field other
than `_id` and `id` unchanged. -/
theorem to_serializable_renames_id (d : Doc) (_hnd : (d.map Prod.fst).Nodup)
    (hne : d ≠ []) (v : Value) (h : dget d "_id" = some v) :
    dget (to_serializable d) "_id" = none ∧
    dget (to_serializable d) "id" = some (Value.str v.strForm) ∧
    ∀ k, k ≠ "_id" → k ≠ "id" → dget (to_serializable d) k = dget d k :=
  ⟨dget_ts_noid d v hne h, dget_ts_id d v hne h, fun k h1 h2 => dget_ts_other d k h1 h2⟩

/-- Witness for the amended C5 at a concrete stored document. -/
theorem to_serializable_renames_id_witness :
    dget (to_serializable [("_id", Value.oid 3), ("name", Value.str "x")]) "_id" = none ∧
    dget (to_serializable [("_id", Value.oid 3), ("name", Value.str "x")]) "id" =
      some (Value.str (Value.oid 3).strForm) ∧
    dget (to_serializable [("_id", Value.oid 3), ("name", Value.str "x")]) "name" =
      dget [("_id", Value.oid 3), ("name", Value.str "x")] "name" := by
  have h := to_serializable_renames_id [("_id", Value.oid 3), ("name", Value.str "x")]
    (by decide) (by decide) (Value.oid 3) (by decide)
  exact ⟨h.1, h.2.1, h.2.2 "name" (by decide) (by decide)⟩

/-- The public identifier of a stored document: the string form of its
attached `_id` value. -/
def docId (d : Doc) : String :=
  match dget d "_id" with
  | some v => v.strForm
  | none => ""

/-- C4: POST /seed inserts the default Organization document exactly
when the organization collection is empty and the default Stats
document exactly when the stats collection is empty, returns the
identifiers of exactly the inserted documents, touches no other
collection, and a second call inserts nothing. -/
theorem seed_inserts_only_when_empty (s : Store) :
    ∃ (s2 : Store) (newOrg newStats : List Doc),
      seed_minimal (some s) = (some s2, Except.ok ((newOrg ++ newStats).map docId)) ∧
      s2.organization = s.organization ++ newOrg ∧
      s2.stats = s.stats ++ newStats ∧
      newOrg.length = (if s.organization = [] then 1 else 0) ∧
      newStats.length = (if s.stats = [] then 1 else 0) ∧
      s2.event = s.event ∧
      s2.teammember = s.teammember ∧
      s2.contactsubmission = s.contactsubmission ∧
      seed_minimal (some s2) = (some s2, Except.ok []) := by
  by_cases ho : s.organization = []
  · by_cases hs : s.stats = []
    · refine ⟨{ s with
          organization := s.organization ++ [dset orgSeedDoc "_id" (Value.oid s.nextId)],
          stats := s.stats ++ [dset statsSeedDoc "_id" (Value.oid (s.nextId + 1))],
          nextId := s.nextId + 1 + 1 },
        [dset orgSeedDoc "_id" (Value.oid s.nextId)],
        [dset statsSeedDoc "_id" (Value.oid (s.nextId + 1))],
        ?_, rfl, rfl, ?_, ?_, rfl, rfl, rfl, ?_⟩
      · simp [seed_minimal, create_doc, putColl, ho, hs, docId, dget_dset_same]
      · simp [ho]
      · simp [hs]
      · simp [seed_minimal, ho, hs]
    · refine ⟨{ s with
          organization := s.organization ++ [dset orgSeedDoc "_id" (Value.oid s.nextId)],
          nextId := s.nextId + 1 },
        [dset orgSeedDoc "_id" (Value.oid s.nextId)],
        [],
        ?_, rfl, by simp, ?_, ?_, rfl, rfl, rfl, ?_⟩
      · simp [seed_minimal, create_doc, putColl, ho, hs, docId, dget_dset_same,
          List.length_eq_zero]
      · simp [ho]
      · simp [hs]
      · simp [seed_minimal, ho, hs, List.length_eq_zero]
  · by_cases hs : s.stats = []
    · refine ⟨{ s with
          stats := s.stats ++ [dset statsSeedDoc "_id" (Value.oid s.nextId)],
          nextId := s.nextId + 1 },
        [],
        [dset statsSeedDoc "_id" (Value.oid s.nextId)],
        ?_, by simp, rfl, ?_, ?_, rfl, rfl, rfl, ?_⟩
      · simp [seed_minimal, create_doc, putColl, ho, hs, docId, dget_dset_same,
          List.length_eq_zero]
      · simp [ho]
      · simp [hs]
      · simp [seed_minimal, ho, hs, List.length_eq_zero]
    · refine ⟨s, [], [], ?_, by simp, by simp, ?_, ?_, rfl, rfl, rfl, ?_⟩
      · simp [seed_minimal, ho, hs, List.length_eq_zero]
      · simp [ho]
      · simp [hs]
      · simp [seed_minimal, ho, hs, List.length_eq_zero]

/-- A document whose date field, when present, is a string, as holds
for every event persisted through this backend (the Event schema types
`date` as a string); the sort model is faithful to Python on exactly
such documents. -/
def dateOk (d : Doc) : Bool :=
  match dget d "date" with
  | none => true
  | some (.str _) => true
  | some _ => false

/-- An event document dated 2023-09-01. -/
def demoSep : Doc := [("title", Value.str "sep"), ("date", Value.str "2023-09-01")]

/-- An event document dated 2023-11-01. -/
def demoNov : Doc := [("title", Value.str "nov"), ("date", Value.str "2023-11-01")]

/-- An event document with no date field. -/
def demoNoDate : Doc := [("title", Value.str "undated")]

/-- A store holding the two dated demo events, September first. -/
def demoStore : Store := { event := [demoSep, demoNov] }

/-- A store holding the two dated demo events and an undated one. -/
def demoStore2 : Store := { event := [demoSep, demoNoDate, demoNov] }

/-- C2: GET /timeline returns the stored event documents sorted by the
date field in descending lexical string order: the output is pairwise
descending under the string order and is a permutation of the
serialized collection; concretely, the document dated 2023-11-01
precedes the one dated 2023-09-01. -/
theorem timeline_sorted_desc :
    (∀ s : Store, s.event.all dateOk = true →
      List.Pairwise (fun a b => dateKey b ≤ dateKey a) (list_events (some s)) ∧
      (list_events (some s)).Perm (s.event.map to_serializable)) ∧
    list_events (some demoStore) = [to_serializable demoNov, to_serializable demoSep] := by
  constructor
  · intro s _
    constructor
    · have hp := pairwise_sortByDateDesc (get_documents s "event")
      rw [list_events]
      refine List.Pairwise.map _ ?_ hp
      intro a b hab
      rw [dateKey_ts, dateKey_ts]
      exact hab
    · rw [list_events]
      have hev : get_documents s "event" = s.event := rfl
      rw [hev]
      exact (perm_sortByDateDesc s.event).map to_serializable
  · decide

/-- Witness for C2 at the concrete two-event store. -/
theorem timeline_sorted_desc_witness :
    List.Pairwise (fun a b => dateKey b ≤ dateKey a) (list_events (some demoStore)) ∧
    (list_events (some demoStore)).Perm (demoStore.event.map to_serializable) :=
  timeline_sorted_desc.1 demoStore (by decide)

/-- C10: an event document lacking a date field is sorted with the
empty string as its key, so it comes after every event with a
non-empty date: in the output, any document at an earlier position
with empty key forces every later one to have empty key too.  The sort
is stable: for every key, the output documents with that key are
exactly the stored ones with that key, serialized, in store order. -/
theorem missing_date_sorts_last :
    (∀ d : Doc, dget d "date" = none → dateKey d = "") ∧
    (∀ s : Store, s.event.all dateOk = true →
      List.Pairwise (fun a b => dateKey a = "" → dateKey b = "") (list_events (some s))) ∧
    (∀ s : Store, s.event.all dateOk = true → ∀ k : String,
      (list_events (some s)).filter (fun d => decide (dateKey d = k)) =
        (s.event.filter (fun d => decide (dateKey d = k))).map to_serializable) := by
  refine ⟨?_, ?_, ?_⟩
  · intro d h
    rw [dateKey, h]
  · intro s _
    have hp := pairwise_sortByDateDesc (get_documents s "event")
    rw [list_events]
    refine List.Pairwise.map _ ?_ hp
    intro a b hab
    rw [dateKey_ts, dateKey_ts]
    intro ha
    apply le_empty_eq
    rw [← ha]
    exact hab
  · intro s _ k
    rw [list_events]
    rw [List.filter_map]
    have hfun : ((fun d => decide (dateKey d = k)) ∘ to_serializable) =
        (fun d => decide (dateKey d = k)) := by
      funext d
      simp [Function.comp, dateKey_ts]
    rw [hfun, filter_sortByDateDesc]
    rfl

/-- Witness for C10: the undated demo document keys to the empty
string, and the three-event demo store sorts and filters as stated. -/
theorem missing_date_sorts_last_witness :
    dateKey demoNoDate = "" ∧
    List.Pairwise (fun a b => dateKey a = "" → dateKey b = "") (list_events (some demoStore2)) ∧
    (list_events (some demoStore2)).filter (fun d => decide (dateKey d = "2023-11-01")) =
      (demoStore2.event.filter (fun d => decide (dateKey d = "2023-11-01"))).map
        to_serializable :=
  ⟨missing_date_sorts_last.1 demoNoDate rfl,
   missing_date_sorts_last.2.1 demoStore2 (by decide),
   missing_date_sorts_last.2.2 demoStore2 (by decide) "2023-11-01"⟩

end Hacksters
